import Mathlib

/-!
# Verification of the grafana-zabbix core against its specification

Shallow embedding of the parts of the grafana-zabbix sources that the
frozen claims are about:

* the Go session manager (`ZabbixRequest`, `isNotAuthorized`) and query
  handler (`ZabbixAPIQuery`, `TestConnection`, `handleAPIResult`) found in
  `src/plugins/zabbix-datasource/utils.js` (second, Go part of that file);
* the Go query resolver (`GetItems`, `GetHosts`, `GetApps`, `GetGroups` and
  the `filter*ByQuery` helpers) from `src/pkg/zabbix/methods.go`;
* the JS function pipeline (`sequence`, `bindFunctionDefs`,
  `applyDataProcessingFunctions`, `downsampleSeries`, `testDatasource`)
  from `src/src/datasource-zabbix/datasource.js`;
* the JS interval parsing (`parseInterval`) from
  `src/plugins/zabbix-datasource/utils.js` and its use in the datasource
  constructors.

External collaborators (the remote HTTP endpoint, the Go `regexp` engine,
the `moment` library, the metric-function registry) are abstracted as
oracle parameters; code of the repository that is not among the given
sources (`parseFilter`, `dataProcessor.groupBy`, the query `Cache`) is
modelled from the specification, with a doc comment saying so.
-/

/-! ## Function pipeline sequencing (datasource.js, `sequence`)

`sequence(funcsArray)` returns a function applying the given functions one
by one, left to right: `sequence([a, b, c])(x) = c(b(a(x)))`. -/

namespace datasource

/-- Function `sequence` from `src/src/datasource-zabbix/datasource.js` (lines
493-500): folds the function array over the input, applying each function
to the running result in array order. -/
def sequence (funcsArray : List (α → α)) : α → α :=
  fun result => funcsArray.foldl (fun acc f => f acc) result

end datasource

/-! ## Session manager (`ZabbixRequest`, Go part of utils.js) -/

/-- Predicate `isNotAuthorized` (Go part of `src/plugins/zabbix-datasource/utils.js`,
lines 350-354): the fixed set of error messages that trigger re-login. -/
def isNotAuthorized (message : String) : Bool :=
  message == "Session terminated, re-login, please." ||
    message == "Not authorised." ||
    message == "Not authorized."

/-- Remote responses seen by `ZabbixRequest`, indexed by how many calls of
each kind were made before: `loginResp n` is the outcome of the `(n+1)`-th
`user.login` (a fresh token or an error message), `callResp n` the outcome
of the `(n+1)`-th authenticated API call. -/
structure ZabbixReqEnv (α : Type) where
  loginResp : Nat → Except String String
  callResp : Nat → Except String α

/-- Trace of one `ZabbixRequest` run: the returned outcome, the auth tokens
presented on the successive API calls (in order), the number of `user.login`
calls performed, and the token held afterwards. -/
structure ZabbixReqTrace (α : Type) where
  result : Except String α
  callTokens : List String
  logins : Nat
  finalToken : String

/-- One pass of the `for attempt := 0; attempt <= 3` loop body of the Go
`ZabbixRequest` (utils.js lines 205-227), with the remaining iteration
count made explicit.  An empty token triggers a login first; a login error
is returned immediately; a call error whose message is in the
`isNotAuthorized` set discards the token and continues the loop, any other
outcome leaves the loop.  `last` is the error carried out of the loop when
the iteration budget is exhausted (the loop body always runs at least once,
so its initial value is irrelevant). -/
def zabbixRequestLoop (env : ZabbixReqEnv α) :
    Nat → String → List String → Nat → Except String α → ZabbixReqTrace α
  | 0, token, calls, logins, last => ⟨last, calls, logins, token⟩
  | n + 1, token, calls, logins, _ =>
    let login : Except String (String × Nat) :=
      if token == "" then
        match env.loginResp logins with
        | .error e => .error e
        | .ok t => .ok (t, logins + 1)
      else .ok (token, logins)
    match login with
    | .error e => ⟨.error e, calls, logins + 1, token⟩
    | .ok (tok, logins') =>
      match env.callResp calls.length with
      | .ok v => ⟨.ok v, calls ++ [tok], logins', tok⟩
      | .error e =>
        if isNotAuthorized e then
          zabbixRequestLoop env n "" (calls ++ [tok]) logins' (.error e)
        else
          ⟨.error e, calls ++ [tok], logins', tok⟩

/-- Function `ZabbixRequest` (Go part of utils.js, lines 205-227): the bounded
re-authentication retry wrapper; `attempt` ranges over `0, 1, 2, 3`, so the
loop body runs at most four times. -/
def ZabbixRequest (env : ZabbixReqEnv α) (authToken : String) : ZabbixReqTrace α :=
  zabbixRequestLoop env 4 authToken [] 0 (.error "")

theorem zabbixRequestLoop_callTokens_le (env : ZabbixReqEnv α) (n : Nat) :
    ∀ token calls logins last,
      (zabbixRequestLoop env n token calls logins last).callTokens.length ≤
        calls.length + n := by
  induction n with
  | zero =>
    intro token calls logins last
    simp [zabbixRequestLoop]
  | succ n ih =>
    intro token calls logins last
    unfold zabbixRequestLoop
    cases htok : token == "" with
    | true =>
      simp only [htok]
      cases hlog : env.loginResp logins with
      | error e => simp
      | ok t =>
        simp only
        cases hc : env.callResp calls.length with
        | ok v => simp
        | error e =>
          cases hna : isNotAuthorized e with
          | true =>
            simp only [hna, if_true]
            calc (zabbixRequestLoop env n "" (calls ++ [t]) (logins + 1)
                    (.error e)).callTokens.length
                ≤ (calls ++ [t]).length + n := ih _ _ _ _
              _ ≤ calls.length + (n + 1) := by simp; omega
          | false => simp [hna]
    | false =>
      simp only [htok]
      cases hc : env.callResp calls.length with
      | ok v => simp
      | error e =>
        cases hna : isNotAuthorized e with
        | true =>
          simp only [hna, if_true]
          calc (zabbixRequestLoop env n "" (calls ++ [token]) logins
                  (.error e)).callTokens.length
              ≤ (calls ++ [token]).length + n := ih _ _ _ _
            _ ≤ calls.length + (n + 1) := by simp; omega
        | false => simp [hna]

/-- C1: for authenticated calls through `ZabbixRequest` with a held token:
a first reply whose error message is outside the fixed not-authorized set
is returned at once, after exactly one transport call and no (re-)login; a
first reply whose error message is in the set discards the token, performs
exactly one re-login and retries the call with the fresh token (shown here
for a retry that succeeds, as in the spec's end-to-end scenario A); and the
number of transport calls is always bounded by the fixed loop limit 4
(`attempt <= 3`). -/
theorem zabbixRequest_auth_retry (α : Type) (env : ZabbixReqEnv α)
    (token : String) (htok : ¬ token = "") :
    (∀ e, env.callResp 0 = .error e → isNotAuthorized e = false →
      ZabbixRequest env token = ⟨.error e, [token], 0, token⟩) ∧
    (∀ e t v, env.callResp 0 = .error e → isNotAuthorized e = true →
      env.loginResp 0 = .ok t → env.callResp 1 = .ok v →
      ZabbixRequest env token = ⟨.ok v, [token, t], 1, t⟩) ∧
    (ZabbixRequest env token).callTokens.length ≤ 4 := by
  have htok' : (token == "") = false := by
    simp [htok]
  refine ⟨?_, ?_, ?_⟩
  · intro e he hna
    unfold ZabbixRequest zabbixRequestLoop
    simp [htok', he, hna]
  · intro e t v he hna hlog hc1
    unfold ZabbixRequest zabbixRequestLoop
    simp only [htok', if_neg, Bool.false_eq_true, if_false, List.length_nil, he, hna, if_true,
      List.nil_append]
    unfold zabbixRequestLoop
    simp [hlog, hc1]
  · have h := zabbixRequestLoop_callTokens_le env 4 token [] 0 (.error "")
    simpa [ZabbixRequest] using h

/-- Concrete environment for the C1 witness: the first call is rejected
with "Not authorised.", re-login yields token "tok2", the retried call
succeeds with value 42. -/
def zabbixReqEnvW : ZabbixReqEnv Nat where
  loginResp := fun _ => .ok "tok2"
  callResp := fun n => if n = 0 then .error "Not authorised." else .ok 42

theorem zabbixRequest_auth_retry_witness :
    ZabbixRequest zabbixReqEnvW "tok1" =
      ⟨.ok 42, ["tok1", "tok2"], 1, "tok2"⟩ :=
  (zabbixRequest_auth_retry Nat zabbixReqEnvW "tok1" (by decide)).2.1
    "Not authorised." "tok2" 42 rfl rfl rfl rfl

/-! ## Sequencing combinator: claim C6 -/

/-- C6: `sequence` applies the functions left to right: it is the identity
on the empty list, peels the first function off the front, applies the last
function last, and on a two-element list `[f1, f2]` it coincides with the
composed function `f2 ∘ f1`. -/
theorem sequence_left_to_right (α : Type) :
    (∀ (x : α), datasource.sequence [] x = x) ∧
    (∀ (f : α → α) (fs : List (α → α)) (x : α),
      datasource.sequence (f :: fs) x = datasource.sequence fs (f x)) ∧
    (∀ (fs : List (α → α)) (g : α → α) (x : α),
      datasource.sequence (fs ++ [g]) x = g (datasource.sequence fs x)) ∧
    (∀ (f1 f2 : α → α) (x : α),
      datasource.sequence [f1, f2] x = (f2 ∘ f1) x) := by
  refine ⟨fun x => rfl, fun f fs x => rfl, ?_, fun f1 f2 x => rfl⟩
  intro fs g x
  simp [datasource.sequence, List.foldl_append]

/-! ## Request transport error priority (claim C2)

Two transports handle an API reply body: the Go `handleAPIResult` (utils.js
lines 319-330, reached only for HTTP 200 replies because `makeHTTPRequest`
turns any other status into an error) and the promise-based
`ZabbixAPIService.request` response callback (second part of
`src/plugins/zabbix-datasource/datasource.js`, lines 448-497). -/

/-- A JSON-RPC error object as carried in a reply body (`{code, message,
data}`). -/
structure APIError where
  code : Int
  message : String
  data : String
  deriving DecidableEq

/-- A parsed JSON-RPC reply body: an optional `error` object and an
optional `result` field (values of the `result` field are abstracted by
`α`). -/
structure APIResponseBody (α : Type) where
  error : Option APIError
  result : Option α
  deriving DecidableEq

/-- Go `handleAPIResult` (utils.js lines 319-330): a body with an `error`
object yields the error built from its `message` and `data` fields
(`fmt.Sprintf("%s %s", ...)`); otherwise the `result` field is returned. -/
def handleAPIResult (response : APIResponseBody α) : Except String (Option α) :=
  match response.error with
  | some errJSON => .error (errJSON.message ++ " " ++ errJSON.data)
  | none => .ok response.result

/-- A promise that settles at most once: `resolve`/`reject` after the first
settlement are ignored (standard deferred semantics). -/
inductive Settled (α β : Type) where
  | pending
  | resolved (v : α)
  | rejected (e : β)
  deriving DecidableEq

/-- JS `deferred.resolve`: settles a pending promise, no-op afterwards. -/
def settleResolve (v : α) : Settled α β → Settled α β
  | .pending => .resolved v
  | s => s

/-- JS `deferred.reject`: settles a pending promise, no-op afterwards. -/
def settleReject (e : β) : Settled α β → Settled α β
  | .pending => .rejected e
  | s => s

/-- The response callback of `ZabbixAPIService.request`
(`src/plugins/zabbix-datasource/datasource.js` lines 483-495) for a reply
that has a body: `if (response.data.error) deferred.reject(response.data.error)`
followed by the unconditional `deferred.resolve(response.data.result)` —
the resolve is a no-op when the deferred was already rejected. -/
def jsRequestSettle (data : APIResponseBody α) : Settled (Option α) APIError :=
  let s : Settled (Option α) APIError := .pending
  let s := match data.error with
    | some e => settleReject e s
    | none => s
  settleResolve data.result s

/-- C2: a reply body carrying an `error` object is surfaced as that error
by both transports — the Go transport returns the error built from the
error object's `message`/`data` fields, the promise transport ends rejected
with the error object — and in neither transport does the reply's `result`
field reach the caller. -/
theorem apiError_takes_priority (α : Type) (body : APIResponseBody α)
    (e : APIError) (herr : body.error = some e) :
    handleAPIResult body = .error (e.message ++ " " ++ e.data) ∧
    jsRequestSettle body = .rejected e := by
  constructor
  · simp [handleAPIResult, herr]
  · simp [jsRequestSettle, herr, settleReject, settleResolve]

theorem apiError_takes_priority_witness :
    handleAPIResult ⟨some ⟨-32602, "Invalid params.", "bad filter"⟩, some (7 : Nat)⟩ =
        .error ("Invalid params." ++ " " ++ "bad filter") ∧
      jsRequestSettle ⟨some ⟨-32602, "Invalid params.", "bad filter"⟩, some (7 : Nat)⟩ =
        .rejected ⟨-32602, "Invalid params.", "bad filter"⟩ :=
  apiError_takes_priority Nat
    ⟨some ⟨-32602, "Invalid params.", "bad filter"⟩, some 7⟩
    ⟨-32602, "Invalid params.", "bad filter"⟩ rfl

/-! ## Query resolver (`src/pkg/zabbix/methods.go`, claims C3 and C4) -/

namespace zabbix

/-- Entity of the `hostgroup.get` reply (methods.go `Group`). -/
structure Group where
  ID : String
  Name : String
  deriving DecidableEq

/-- Entity of the `host.get` reply (methods.go `Host`). -/
structure Host where
  ID : String
  Name : String
  deriving DecidableEq

/-- Entity of the `application.get` reply (methods.go `Application`). -/
structure Application where
  ID : String
  Name : String
  deriving DecidableEq

/-- Entity of the `item.get` reply (methods.go `Item`). -/
structure Item where
  ID : String
  Name : String
  deriving DecidableEq

/-- The Go `regexp` engine, external to the repository: compiling a
pattern (with flags) either fails or yields a matcher on entity names. -/
structure RegexEngine where
  compile : String → String → Except String (String → Bool)

/-- Splits the characters after the leading `/` of a `/pattern/flags`
filter at the LAST `/`, mirroring the greedy `^/(.+)/(.*)$` shape the spec
describes; `none` when no `/` remains. -/
def lastSlashSplit : List Char → Option (List Char × List Char)
  | [] => none
  | c :: cs =>
    match lastSlashSplit cs with
    | some (p, f) => some (c :: p, f)
    | none => if c = '/' then some ([], cs) else none

/-- Classifies a filter string: `some (pattern, flags)` when it is a
delimited `/pattern/flags` with a non-empty pattern, `none` otherwise. -/
def splitRegexFilter (s : String) : Option (String × String) :=
  match s.toList with
  | '/' :: rest =>
    match lastSlashSplit rest with
    | some (p, f) => if p.isEmpty then none else some (String.mk p, String.mk f)
    | none => none
  | _ => none

/-- Modelled from the spec: the helper `parseFilter` called throughout
`methods.go` is not among the given sources.  Per §4.4 of the spec, a
filter string is classified once as Regex when it is a delimited
`/pattern/flags` (yielding a compiled matcher, or the compile error for a
malformed pattern) and as Exact otherwise (yielding no matcher, `nil` in
the Go code). -/
def parseFilter (eng : RegexEngine) (filter : String) :
    Except String (Option (String → Bool)) :=
  match splitRegexFilter filter with
  | some (pattern, flags) =>
    match eng.compile pattern flags with
    | .ok re => .ok (some re)
    | .error e => .error e
  | none => .ok none

/-- Function `filterItemsByQuery` (methods.go lines 39-59): keeps the items whose
name the compiled regex matches, or — for an Exact filter — whose name
equals the filter string. -/
def filterItemsByQuery (eng : RegexEngine) (items : List Item) (filter : String) :
    Except String (List Item) :=
  match parseFilter eng filter with
  | .error e => .error e
  | .ok re => .ok (items.filter fun i =>
      match re with
      | some m => m i.Name
      | none => i.Name == filter)

/-- Function `filterAppsByQuery` (methods.go lines 78-98), same shape as
`filterItemsByQuery`. -/
def filterAppsByQuery (eng : RegexEngine) (items : List Application) (filter : String) :
    Except String (List Application) :=
  match parseFilter eng filter with
  | .error e => .error e
  | .ok re => .ok (items.filter fun i =>
      match re with
      | some m => m i.Name
      | none => i.Name == filter)

/-- Function `filterHostsByQuery` (methods.go lines 117-137). -/
def filterHostsByQuery (eng : RegexEngine) (items : List Host) (filter : String) :
    Except String (List Host) :=
  match parseFilter eng filter with
  | .error e => .error e
  | .ok re => .ok (items.filter fun i =>
      match re with
      | some m => m i.Name
      | none => i.Name == filter)

/-- Function `filterGroupsByQuery` (methods.go lines 148-168). -/
def filterGroupsByQuery (eng : RegexEngine) (items : List Group) (filter : String) :
    Except String (List Group) :=
  match parseFilter eng filter with
  | .error e => .error e
  | .ok re => .ok (items.filter fun i =>
      match re with
      | some m => m i.Name
      | none => i.Name == filter)

/-- The `Zabbix` receiver of methods.go, with the remote "get-all"
fetchers (`GetAllGroups`/`GetAllHosts`/`GetAllApps`/`GetAllItems`, which
only wrap `ds.Request` calls) abstracted as oracle responses indexed by the
exact scoping parameters they receive, plus the regex engine used by the
filter helpers. -/
structure Zabbix where
  eng : RegexEngine
  allGroupsResp : Except String (List Group)
  allHostsResp : List String → Except String (List Host)
  allAppsResp : List String → Except String (List Application)
  allItemsResp : List String → List String → String → Except String (List Item)

/-- Function `GetGroups` (methods.go lines 139-146). -/
def GetGroups (ds : Zabbix) (groupFilter : String) : Except String (List Group) :=
  match ds.allGroupsResp with
  | .error e => .error e
  | .ok allGroups => filterGroupsByQuery ds.eng allGroups groupFilter

/-- Function `GetHosts` (methods.go lines 100-115): groups filtered by
`groupFilter` give the group-ids that scope the host fetch, whose result is
filtered by `hostFilter`. -/
def GetHosts (ds : Zabbix) (groupFilter hostFilter : String) :
    Except String (List Host) :=
  match GetGroups ds groupFilter with
  | .error e => .error e
  | .ok groups =>
    match ds.allHostsResp (groups.map Group.ID) with
    | .error e => .error e
    | .ok allHosts => filterHostsByQuery ds.eng allHosts hostFilter

/-- Function `GetApps` (methods.go lines 61-76): hosts resolved as in `GetHosts`
give the host-ids that scope the application fetch, whose result is
filtered by `appFilter`. -/
def GetApps (ds : Zabbix) (groupFilter hostFilter appFilter : String) :
    Except String (List Application) :=
  match GetHosts ds groupFilter hostFilter with
  | .error e => .error e
  | .ok hosts =>
    match ds.allAppsResp (hosts.map Host.ID) with
    | .error e => .error e
    | .ok allApps => filterAppsByQuery ds.eng allApps appFilter

/-- Predicate `isAppMethodNotFoundError` (methods.go lines 248-255): `true` exactly
for a non-nil error with the verbatim message of the application API being
absent. -/
def isAppMethodNotFoundError : Option String → Bool
  | none => false
  | some message => message == "Method not found. Incorrect API \"application\"."

/-- Function `GetItems` (methods.go lines 7-37).  Hosts are resolved first;
applications next, where exactly the application-method-not-found error
degrades to an empty application list and any other error aborts; the item
fetch is scoped to the host-ids when any exist, else to the app-ids when
any exist, else no fetch happens; the fetch's own error is discarded by the
Go code (`err` is assigned but never checked, leaving `allItems` nil), and
the resulting list is filtered by `itemFilter`. -/
def GetItems (ds : Zabbix) (groupFilter hostFilter appFilter itemFilter itemType : String) :
    Except String (List Item) :=
  match GetHosts ds groupFilter hostFilter with
  | .error e => .error e
  | .ok hosts =>
    let hostids := hosts.map Host.ID
    let appsRes : Except String (List Application) :=
      match GetApps ds groupFilter hostFilter appFilter with
      | .error e => if isAppMethodNotFoundError (some e) then .ok [] else .error e
      | .ok apps => .ok apps
    match appsRes with
    | .error e => .error e
    | .ok apps =>
      let appids := apps.map Application.ID
      let allItems : List Item :=
        if hostids.length > 0 then
          match ds.allItemsResp hostids [] itemType with
          | .ok items => items
          | .error _ => []
        else if appids.length > 0 then
          match ds.allItemsResp [] appids itemType with
          | .ok items => items
          | .error _ => []
        else []
      filterItemsByQuery ds.eng allItems itemFilter

end zabbix

namespace zabbix

/-- C3: during `GetItems` resolution, when the application step fails with
exactly the application-API method-not-found message, the application set
degrades to empty and resolution continues to the item fetch (scoped by the
resolved hosts; with no hosts there is nothing to scope by and the item
list stays empty), while any other application-step error aborts the
resolution with that error. -/
theorem GetItems_app_method_degradation (ds : Zabbix)
    (gf hf af itf ty : String) (hosts : List Host) (e : String)
    (fetched : List Item)
    (hh : GetHosts ds gf hf = .ok hosts)
    (ha : GetApps ds gf hf af = .error e) :
    (e = "Method not found. Incorrect API \"application\"." → ¬ hosts = [] →
      ds.allItemsResp (hosts.map Host.ID) [] ty = .ok fetched →
      GetItems ds gf hf af itf ty = filterItemsByQuery ds.eng fetched itf) ∧
    (e = "Method not found. Incorrect API \"application\"." → hosts = [] →
      GetItems ds gf hf af itf ty = filterItemsByQuery ds.eng [] itf) ∧
    (¬ e = "Method not found. Incorrect API \"application\"." →
      GetItems ds gf hf af itf ty = .error e) := by
  refine ⟨?_, ?_, ?_⟩
  · intro he hne hfetch
    subst he
    have hlen : 0 < hosts.length := List.length_pos.mpr hne
    simp [GetItems, hh, ha, isAppMethodNotFoundError, hfetch, hlen]
  · intro he hnil
    subst he hnil
    simp [GetItems, hh, ha, isAppMethodNotFoundError]
  · intro hne
    have hbe : (e == "Method not found. Incorrect API \"application\".") = false := by
      simp [hne]
    simp [GetItems, hh, ha, isAppMethodNotFoundError, hbe]

/-- Environment for the C3 witness: one group, one host, the application
API absent (method-not-found error), items fetchable for the host. -/
def dsC3 : Zabbix where
  eng := ⟨fun _ _ => .ok (fun _ => true)⟩
  allGroupsResp := .ok [⟨"1", "Linux servers"⟩]
  allHostsResp := fun _ => .ok [⟨"10", "web-01"⟩]
  allAppsResp := fun _ => .error "Method not found. Incorrect API \"application\"."
  allItemsResp := fun hostids _ _ =>
    if hostids = ["10"] then .ok [⟨"100", "CPU load"⟩] else .ok []

theorem GetItems_app_method_degradation_witness :
    GetItems dsC3 "Linux servers" "web-01" "" "CPU load" "num" =
      filterItemsByQuery dsC3.eng [⟨"100", "CPU load"⟩] "CPU load" :=
  (GetItems_app_method_degradation dsC3 "Linux servers" "web-01" "" "CPU load"
      "num" [⟨"10", "web-01"⟩] "Method not found. Incorrect API \"application\"."
      [⟨"100", "CPU load"⟩] rfl rfl).1 rfl (by decide) rfl

/-- C4: the item fetch of `GetItems` is scoped to the resolved host-ids
when any host resolved, and to the resolved application-ids when no host
but some application resolved; the fetched items are then filtered by
`itemFilter` — name equality for a plain filter string, matcher acceptance
for a `/pattern/` filter. -/
theorem GetItems_scoping_and_filtering (ds : Zabbix)
    (gf hf af itf ty : String) (hosts : List Host) (apps : List Application)
    (fetched : List Item)
    (hh : GetHosts ds gf hf = .ok hosts)
    (ha : GetApps ds gf hf af = .ok apps) :
    (¬ hosts = [] →
      ds.allItemsResp (hosts.map Host.ID) [] ty = .ok fetched →
      GetItems ds gf hf af itf ty = filterItemsByQuery ds.eng fetched itf) ∧
    (hosts = [] → ¬ apps = [] →
      ds.allItemsResp [] (apps.map Application.ID) ty = .ok fetched →
      GetItems ds gf hf af itf ty = filterItemsByQuery ds.eng fetched itf) ∧
    (splitRegexFilter itf = none →
      filterItemsByQuery ds.eng fetched itf =
        .ok (fetched.filter fun i => i.Name == itf)) ∧
    (∀ pattern flags m, splitRegexFilter itf = some (pattern, flags) →
      ds.eng.compile pattern flags = .ok m →
      filterItemsByQuery ds.eng fetched itf =
        .ok (fetched.filter fun i => m i.Name)) := by
  refine ⟨?_, ?_, ?_, ?_⟩
  · intro hne hfetch
    have hlen : 0 < hosts.length := List.length_pos.mpr hne
    simp [GetItems, hh, ha, hfetch, hlen]
  · intro hnil hne hfetch
    subst hnil
    have hlen : 0 < apps.length := List.length_pos.mpr hne
    simp [GetItems, hh, ha, hfetch, hlen]
  · intro hsplit
    simp [filterItemsByQuery, parseFilter, hsplit]
  · intro pattern flags m hsplit hcomp
    simp [filterItemsByQuery, parseFilter, hsplit, hcomp]

/-- Environment for the C4 witness: one group, two hosts, one application,
items fetchable for the two hosts; the regex engine matches by prefix. -/
def dsC4 : Zabbix where
  eng := ⟨fun pattern _ => .ok (fun name => pattern.toList.isPrefixOf name.toList)⟩
  allGroupsResp := .ok [⟨"1", "Linux servers"⟩]
  allHostsResp := fun _ => .ok [⟨"10", "web-01"⟩, ⟨"11", "web-02"⟩]
  allAppsResp := fun _ => .ok [⟨"20", "CPU"⟩]
  allItemsResp := fun hostids _ _ =>
    if hostids = ["10", "11"] then
      .ok [⟨"100", "CPU load"⟩, ⟨"101", "Memory usage"⟩]
    else .ok []

theorem GetItems_scoping_and_filtering_witness :
    GetItems dsC4 "/Linux/" "/web/" "/CPU/" "/CPU/" "num" =
        filterItemsByQuery dsC4.eng
          [⟨"100", "CPU load"⟩, ⟨"101", "Memory usage"⟩] "/CPU/" ∧
      filterItemsByQuery dsC4.eng
          [⟨"100", "CPU load"⟩, ⟨"101", "Memory usage"⟩] "/CPU/" =
        .ok [⟨"100", "CPU load"⟩] :=
  ⟨(GetItems_scoping_and_filtering dsC4 "/Linux/" "/web/" "/CPU/" "/CPU/" "num"
      [⟨"10", "web-01"⟩, ⟨"11", "web-02"⟩] [⟨"20", "CPU"⟩]
      [⟨"100", "CPU load"⟩, ⟨"101", "Memory usage"⟩] rfl rfl).1
      (by decide) rfl,
    (GetItems_scoping_and_filtering dsC4 "/Linux/" "/web/" "/CPU/" "/CPU/" "num"
      [⟨"10", "web-01"⟩, ⟨"11", "web-02"⟩] [⟨"20", "CPU"⟩]
      [⟨"100", "CPU load"⟩, ⟨"101", "Memory usage"⟩] rfl rfl).2.2.2
      "CPU" "" (fun name => ("CPU").toList.isPrefixOf name.toList) rfl rfl⟩

end zabbix

/-! ## Function pipeline (`src/src/datasource-zabbix/datasource.js`,
claims C5 and C7) -/

namespace datasource

/-- The fixed function categories of the metric-function registry. -/
inductive Category where
  | Time
  | Transform
  | Filter
  | Aggregate
  | Alias
  | Trends
  deriving DecidableEq

/-- A registry entry reference as stored on a target function
(`func.def`). -/
structure FuncDef where
  name : String
  deriving DecidableEq

/-- A function call on a target (`func`): its registry entry (`def` in the
JS, a keyword here), its positional parameters and its display text. -/
structure FuncCall where
  fdef : FuncDef
  params : List String
  text : String
  deriving DecidableEq

/-- A time series as the pipeline sees it: a label (`target`) and a
`datapoints` value, whose JS representation is abstracted by `V`. -/
structure Series (V : Type) where
  target : String
  datapoints : V
  deriving DecidableEq

/-- A query target, reduced to the field the pipeline reads: its ordered
function list. -/
structure Target where
  functions : List FuncCall
  deriving DecidableEq

/-- Modelled from the spec: the metric-function registry
(`metricFunctions.js`) and the bound implementations
(`dataProcessor.metricFunctions`) are not among the given sources.  Per
§4.6 and §2 of the spec, the registry statically maps function names to
one category (`categoryNames` lists the registered names per category, as
`metricFunctions.getCategories()[category]` does) and
`createFuncInstance(...).bindFunction(...)` turns a call into a concrete
transformation; because the JS is untyped, one binder per category is
carried, typed by how the pipeline applies that category (Transform and
Aggregate on datapoints values, Filter on the series collection, Alias on
one series — mutating only its label by design).  `wrapList` injects the
array of per-series datapoints built by `_.map(timeseries_data,
'datapoints')` into the JS value universe `V`, and `unShiftTimeSeries` is
`dataProcessor.unShiftTimeSeries`. -/
structure PipelineEnv (V : Type) where
  categoryNames : Category → List String
  bindTransform : FuncCall → V → V
  bindAggregate : FuncCall → V → V
  bindFilter : FuncCall → List (Series V) → List (Series V)
  bindAlias : FuncCall → Series V → Series V
  wrapList : List V → V
  unShiftTimeSeries : String → V → V

/-- The selection half of `bindFunctionDefs` (datasource.js lines
414-424): the target's functions whose registered name belongs to the
requested category, in declaration order. -/
def categoryFuncDefs (env : PipelineEnv V) (category : Category)
    (functionDefs : List FuncCall) : List FuncCall :=
  functionDefs.filter fun func => (env.categoryNames category).contains func.fdef.name

/-- Lodash `_.findLast(target.functions, ...)` over the Aggregate category
(datasource.js lines 174-177): the last function of the original list
whose name is registered as Aggregate. -/
def findLastAggregate (env : PipelineEnv V) (functions : List FuncCall) : Option FuncCall :=
  functions.reverse.find? fun func =>
    (env.categoryNames Category.Aggregate).contains func.fdef.name

/-- Function `applyTimeShiftFunction` (datasource.js lines 195-206): when a
`timeShift` call is present, every series' datapoints are un-shifted by its
first parameter; labels are untouched. -/
def applyTimeShiftFunction (env : PipelineEnv V) (timeseries_data : List (Series V))
    (target : Target) : List (Series V) :=
  match target.functions.find? (fun func => func.fdef.name == "timeShift") with
  | some timeShiftFunc =>
    timeseries_data.map fun series =>
      { series with
          datapoints := env.unShiftTimeSeries (timeShiftFunc.params.headD "")
            series.datapoints }
  | none => timeseries_data

/-- Function `applyDataProcessingFunctions` (datasource.js lines 152-193): Transform
functions sequence over each series' datapoints; Filter functions (when
any) sequence over the series collection; Aggregate functions (when any)
sequence over the array of datapoints and collapse the collection to a
single series labeled with the text of the last Aggregate call of the
original function list; Alias functions are applied to every series
(mutating labels in place, rendered as a map); finally the timeShift
un-shift runs. -/
def applyDataProcessingFunctions (env : PipelineEnv V)
    (timeseries_data : List (Series V)) (target : Target) : List (Series V) :=
  let transformFunctions :=
    (categoryFuncDefs env Category.Transform target.functions).map env.bindTransform
  let aggregationFunctions :=
    (categoryFuncDefs env Category.Aggregate target.functions).map env.bindAggregate
  let filterFunctions :=
    (categoryFuncDefs env Category.Filter target.functions).map env.bindFilter
  let aliasFunctions :=
    (categoryFuncDefs env Category.Alias target.functions).map env.bindAlias
  let afterTransform := timeseries_data.map fun timeseries =>
    { timeseries with datapoints := sequence transformFunctions timeseries.datapoints }
  let afterFilter :=
    if 0 < filterFunctions.length then sequence filterFunctions afterTransform
    else afterTransform
  let afterAggregate :=
    if 0 < aggregationFunctions.length then
      let dp := sequence aggregationFunctions
        (env.wrapList (afterFilter.map Series.datapoints))
      match findLastAggregate env target.functions with
      | some lastAgg => [⟨lastAgg.text, dp⟩]
      | none => []
    else afterFilter
  let afterAlias := afterAggregate.map (sequence aliasFunctions)
  applyTimeShiftFunction env afterAlias target

theorem applyTimeShiftFunction_length (env : PipelineEnv V)
    (l : List (Series V)) (t : Target) :
    (applyTimeShiftFunction env l t).length = l.length := by
  unfold applyTimeShiftFunction
  cases t.functions.find? (fun func => func.fdef.name == "timeShift") <;> simp

theorem applyTimeShiftFunction_targets (env : PipelineEnv V)
    (l : List (Series V)) (t : Target) :
    (applyTimeShiftFunction env l t).map Series.target = l.map Series.target := by
  unfold applyTimeShiftFunction
  cases t.functions.find? (fun func => func.fdef.name == "timeShift") <;>
    simp [List.map_map, Function.comp_def]

theorem findLastAggregate_isSome (env : PipelineEnv V) (fs : List FuncCall)
    (h : ¬ categoryFuncDefs env Category.Aggregate fs = []) :
    ∃ f, findLastAggregate env fs = some f := by
  cases hfind : findLastAggregate env fs with
  | some f => exact ⟨f, rfl⟩
  | none =>
    exfalso
    apply h
    unfold findLastAggregate at hfind
    rw [List.find?_eq_none] at hfind
    unfold categoryFuncDefs
    rw [List.filter_eq_nil_iff]
    intro a ha
    exact hfind a (by simpa using ha)

/-- C5 (amended): when a target's function list contains at least one
Aggregate-category function, the pipeline's output is exactly one series;
and when the target additionally has no Alias-category function (which runs
after aggregation and may relabel the result), the output label is the
`text` of the last Aggregate-category function of the original function
list — last occurrence in declaration order wins. -/
theorem aggregate_collapses_to_single_series (V : Type) (env : PipelineEnv V)
    (timeseries_data : List (Series V)) (target : Target)
    (hagg : ¬ categoryFuncDefs env Category.Aggregate target.functions = []) :
    (applyDataProcessingFunctions env timeseries_data target).length = 1 ∧
    (categoryFuncDefs env Category.Alias target.functions = [] →
      ∃ lastAgg, findLastAggregate env target.functions = some lastAgg ∧
        (applyDataProcessingFunctions env timeseries_data target).map Series.target =
          [lastAgg.text]) := by
  obtain ⟨f, hf⟩ := findLastAggregate_isSome env target.functions hagg
  have hlen : 0 < (categoryFuncDefs env Category.Aggregate target.functions).length :=
    List.length_pos.mpr hagg
  constructor
  · rw [applyDataProcessingFunctions]
    simp only [List.length_map, hlen, if_pos, hf, applyTimeShiftFunction_length]
    simp
  · intro halias
    refine ⟨f, hf, ?_⟩
    rw [applyDataProcessingFunctions]
    simp only [List.length_map, hlen, if_pos, hf, applyTimeShiftFunction_targets, halias]
    simp [sequence]

/-- Concrete pipeline environment for the C5 counterexample and witness:
the registry knows one Aggregate function `avg` and one Alias function
`alias` whose bound implementation sets the series label to its first
parameter (per §4.6 of the spec, Alias mutates only labels). -/
def envC5 : PipelineEnv String where
  categoryNames := fun c =>
    match c with
    | Category.Aggregate => ["avg"]
    | Category.Alias => ["alias"]
    | _ => []
  bindTransform := fun _ v => v
  bindAggregate := fun _ v => v
  bindFilter := fun _ l => l
  bindAlias := fun func series => { series with target := func.params.headD "" }
  wrapList := fun l => String.intercalate "," l
  unShiftTimeSeries := fun _ v => v

/-- Target of the spec's end-to-end scenario C: an `avg` aggregation
followed by an `alias("CPU avg")`. -/
def targetC5 : Target :=
  ⟨[⟨⟨"avg"⟩, [], "avg()"⟩, ⟨⟨"alias"⟩, ["CPU avg"], "alias(CPU avg)"⟩]⟩

/-- Target for the C5 witness: the same aggregation with no alias. -/
def targetC5w : Target := ⟨[⟨⟨"avg"⟩, [], "avg()"⟩]⟩

/-- Two input series with opaque datapoints. -/
def tsC5 : List (Series String) := [⟨"s1", "a"⟩, ⟨"s2", "b"⟩]

/-- C5 counterexample: for scenario C's target the last Aggregate-category
function of the original list has text `avg()`, yet the pipeline's single
output series is labeled `CPU avg` — the Alias function applied after
aggregation overrides the label, so the output label does not equal the
last Aggregate function's text as the claim states. -/
theorem aggregate_label_counterexample :
    findLastAggregate envC5 targetC5.functions = some ⟨⟨"avg"⟩, [], "avg()"⟩ ∧
    (applyDataProcessingFunctions envC5 tsC5 targetC5).map Series.target = ["CPU avg"] ∧
    ¬ ("CPU avg" = "avg()") := by
  refine ⟨rfl, rfl, by decide⟩

theorem aggregate_collapses_witness :
    (applyDataProcessingFunctions envC5 tsC5 targetC5w).length = 1 ∧
    (∃ lastAgg, findLastAggregate envC5 targetC5w.functions = some lastAgg ∧
      (applyDataProcessingFunctions envC5 tsC5 targetC5w).map Series.target =
        [lastAgg.text]) :=
  ⟨(aggregate_collapses_to_single_series String envC5 tsC5 targetC5w (by decide)).1,
    (aggregate_collapses_to_single_series String envC5 tsC5 targetC5w (by decide)).2 rfl⟩

end datasource

namespace datasource

/-- A datapoint as stored on a series: a value and a millisecond
timestamp (values as exact rationals, since the claims are about
arithmetic means). -/
abbrev DataPoint := Rat × Int

/-- A series with concrete datapoint arrays, as the downsampling stage of
`query` sees them. -/
abbrev DSeries := Series (List DataPoint)

/-- JS `dataProcessor.AVERAGE`: the arithmetic mean of a list of values. -/
def AVERAGE (values : List Rat) : Rat := values.sum / (values.length : Rat)

/-- First-occurrence deduplication of bucket keys. -/
def uniqueKeys : List Int → List Int
  | [] => []
  | k :: ks => k :: (uniqueKeys ks).filter (fun x => x != k)

/-- Modelled from the spec: `dataProcessor.groupBy` is not among the given
sources.  Per §4.7 of the spec, the datapoints are grouped into fixed-width
time buckets sized from the interval hint (here already converted to
milliseconds), and each bucket is reduced by the callback to one point at
the bucket's representative timestamp (the bucket's start). -/
def groupBy (intervalMs : Int) (groupByCallback : List Rat → Rat)
    (datapoints : List DataPoint) : List DataPoint :=
  let keyOf := fun (p : DataPoint) => p.2 / intervalMs
  (uniqueKeys (datapoints.map keyOf)).map fun k =>
    (groupByCallback ((datapoints.filter fun p => keyOf p == k).map Prod.fst),
      k * intervalMs)

/-- The downsampling stage of `query`
(`src/src/datasource-zabbix/datasource.js` lines 426-434, and the same
inline code in the older plugin's `query`): each series whose point count
exceeds `maxDataPoints` has its points replaced by
`groupBy(interval, AVERAGE, datapoints)`; other series pass through. -/
def downsampleSeries (timeseries_data : List DSeries) (maxDataPoints : Nat)
    (intervalMs : Int) : List DSeries :=
  timeseries_data.map fun timeseries =>
    if maxDataPoints < timeseries.datapoints.length then
      { timeseries with
          datapoints := groupBy intervalMs AVERAGE timeseries.datapoints }
    else timeseries

/-- The tail of `query` (datasource.js lines 104-113): the per-target
pipeline outputs are flattened and only then downsampled — user transforms
see full-resolution data. -/
def queryProcessTargets (env : PipelineEnv (List DataPoint))
    (targetsData : List (Target × List DSeries)) (maxDataPoints : Nat)
    (intervalMs : Int) : List DSeries :=
  downsampleSeries
    ((targetsData.map fun td => applyDataProcessingFunctions env td.2 td.1).flatten)
    maxDataPoints intervalMs

theorem downsampleSeries_pass_through (ts : List DSeries) (maxDataPoints : Nat)
    (intervalMs : Int) (h : ∀ s ∈ ts, s.datapoints.length ≤ maxDataPoints) :
    downsampleSeries ts maxDataPoints intervalMs = ts := by
  induction ts with
  | nil => rfl
  | cons s rest ih =>
    have hs : ¬ maxDataPoints < s.datapoints.length :=
      not_lt.mpr (h s (List.mem_cons_self s rest))
    have ih' := ih (fun x hx => h x (List.mem_cons_of_mem s hx))
    simp only [downsampleSeries, List.map_cons, if_neg hs]
    simp only [downsampleSeries] at ih'
    rw [ih']

theorem uniqueKeys_nodup (l : List Int) : (uniqueKeys l).Nodup := by
  induction l with
  | nil => simp [uniqueKeys]
  | cons k ks ih =>
    simp only [uniqueKeys, List.nodup_cons]
    refine ⟨?_, ih.filter _⟩
    intro hmem
    have := List.of_mem_filter hmem
    simp at this

theorem mem_uniqueKeys (l : List Int) (x : Int) : x ∈ uniqueKeys l ↔ x ∈ l := by
  induction l with
  | nil => simp [uniqueKeys]
  | cons k ks ih =>
    simp only [uniqueKeys, List.mem_cons, List.mem_filter, ih, bne_iff_ne, ne_eq]
    constructor
    · rintro (h | ⟨h, _⟩)
      · exact Or.inl h
      · exact Or.inr h
    · rintro (h | h)
      · exact Or.inl h
      · by_cases hxk : x = k
        · exact Or.inl hxk
        · exact Or.inr ⟨h, hxk⟩

/-- C7: in the final stage of `query`: a series at or under the point
maximum passes through downsampling unchanged; series are processed
independently; a series over the maximum has its points replaced by the
bucket reduction; the bucketed output has one point per occupied bucket
(pairwise distinct bucket timestamps `k·interval`), each carrying the
arithmetic mean of its source bucket (mean × bucket size = bucket sum);
and the downsampling stage operates on the flattened outputs of the
per-target function pipelines — in particular it is the identity on them
when they are all within the maximum. -/
theorem downsample_final_series (maxDataPoints : Nat) (intervalMs : Int)
    (hiv : 0 < intervalMs) :
    (∀ ts : List DSeries, (∀ s ∈ ts, s.datapoints.length ≤ maxDataPoints) →
      downsampleSeries ts maxDataPoints intervalMs = ts) ∧
    (∀ a b : List DSeries,
      downsampleSeries (a ++ b) maxDataPoints intervalMs =
        downsampleSeries a maxDataPoints intervalMs ++
          downsampleSeries b maxDataPoints intervalMs) ∧
    (∀ s : DSeries, maxDataPoints < s.datapoints.length →
      downsampleSeries [s] maxDataPoints intervalMs =
        [⟨s.target, groupBy intervalMs AVERAGE s.datapoints⟩]) ∧
    (∀ ps : List DataPoint,
      ((groupBy intervalMs AVERAGE ps).map Prod.snd).Nodup) ∧
    (∀ (ps : List DataPoint) (q : DataPoint), q ∈ groupBy intervalMs AVERAGE ps →
      ∃ k, q.2 = k * intervalMs ∧
        ¬ (ps.filter fun p => p.2 / intervalMs == k) = [] ∧
        q.1 = AVERAGE ((ps.filter fun p => p.2 / intervalMs == k).map Prod.fst) ∧
        q.1 * (((ps.filter fun p => p.2 / intervalMs == k).length : Nat) : Rat) =
          ((ps.filter fun p => p.2 / intervalMs == k).map Prod.fst).sum) ∧
    (∀ (env : PipelineEnv (List DataPoint)) (tds : List (Target × List DSeries)),
      (∀ s ∈ (tds.map fun td => applyDataProcessingFunctions env td.2 td.1).flatten,
        s.datapoints.length ≤ maxDataPoints) →
      queryProcessTargets env tds maxDataPoints intervalMs =
        (tds.map fun td => applyDataProcessingFunctions env td.2 td.1).flatten) := by
  have hne : intervalMs ≠ 0 := ne_of_gt hiv
  refine ⟨fun ts => downsampleSeries_pass_through ts maxDataPoints intervalMs,
    ?_, ?_, ?_, ?_, ?_⟩
  · intro a b
    simp [downsampleSeries]
  · intro s hs
    simp [downsampleSeries, hs]
  · intro ps
    unfold groupBy
    simp only [List.map_map, Function.comp_def]
    exact (uniqueKeys_nodup _).map (fun x y hxy => mul_right_cancel₀ hne hxy)
  · intro ps q hq
    unfold groupBy at hq
    simp only [List.mem_map] at hq
    obtain ⟨k, hk, hq⟩ := hq
    have hmem : k ∈ ps.map fun p => p.2 / intervalMs := (mem_uniqueKeys _ k).mp hk
    simp only [List.mem_map] at hmem
    obtain ⟨p, hp, hpk⟩ := hmem
    have hfil : p ∈ ps.filter fun p => p.2 / intervalMs == k := by
      rw [List.mem_filter]
      exact ⟨hp, by simp [hpk]⟩
    have hnil : ¬ (ps.filter fun p => p.2 / intervalMs == k) = [] :=
      List.ne_nil_of_mem hfil
    have hlenne : (((ps.filter fun p => p.2 / intervalMs == k).length : Nat) : Rat) ≠ 0 := by
      have : 0 < (ps.filter fun p => p.2 / intervalMs == k).length :=
        List.length_pos.mpr hnil
      exact_mod_cast Nat.pos_iff_ne_zero.mp this
    refine ⟨k, by rw [← hq], hnil, by rw [← hq], ?_⟩
    rw [← hq]
    simp only [AVERAGE, List.length_map]
    rw [div_mul_cancel₀ _ hlenne]
  · intro env tds h
    exact downsampleSeries_pass_through _ maxDataPoints intervalMs h

theorem downsample_final_series_witness :
    downsampleSeries [⟨"s", [((1 : Rat), (0 : Int)), (3, 1), (5, 2)]⟩] 2 2 =
      [⟨"s", groupBy 2 AVERAGE [((1 : Rat), (0 : Int)), (3, 1), (5, 2)]⟩] :=
  (downsample_final_series 2 2 (by decide)).2.2.1
    ⟨"s", [((1 : Rat), (0 : Int)), (3, 1), (5, 2)]⟩ (by decide)

end datasource

/-! ## Connection tests (claim C8)

Two connection tests exist: the frontend `testDatasource`
(`src/src/datasource-zabbix/datasource.js` lines 238-267) chains
`zabbix.getVersion()` (an `apiinfo.version` call) and then `zabbix.login()`
(a `user.login` call); the Go backend `TestConnection` (utils.js lines
179-202) performs `loginWithDs` (a `user.login` call) first and the
`apiinfo.version` request second.  Each embedding also returns the list of
remote API methods invoked, in order. -/

/-- The status object `testDatasource` resolves with. -/
structure DsStatus where
  status : String
  title : String
  message : String
  deriving DecidableEq

/-- An error reaching `testDatasource`'s catch handler: a structured
`ZabbixAPIError` (with `message` and `data`), or any other failure (an
unreachable endpoint). -/
inductive JsError where
  | zabbixAPIError (message : String) (data : String)
  | connectionError
  deriving DecidableEq

/-- Outcomes of the two calls `testDatasource` performs. -/
structure JsTestEnv where
  getVersion : Except JsError String
  login : Except JsError String

/-- The catch handler of `testDatasource` (datasource.js lines 252-266):
a `ZabbixAPIError` is reported with its message as title and its data as
message; anything else is reported as a failed connection. -/
def testDatasourceCatch : JsError → DsStatus
  | .zabbixAPIError message data => ⟨"error", message, data⟩
  | .connectionError => ⟨"error", "Connection failed", "Could not connect to given url"⟩

/-- Function `testDatasource` (datasource.js lines 238-267), with the invoked API
methods traced in order: `getVersion` first; on its success `login`; on
both succeeding, a success status carrying the version. -/
def testDatasource (env : JsTestEnv) : DsStatus × List String :=
  match env.getVersion with
  | .error e => (testDatasourceCatch e, ["apiinfo.version"])
  | .ok version =>
    match env.login with
    | .error e => (testDatasourceCatch e, ["apiinfo.version", "user.login"])
    | .ok _ =>
      (⟨"success", "Success", "Zabbix API version: " ++ version⟩,
        ["apiinfo.version", "user.login"])

/-- Outcomes of the two calls the Go `TestConnection` performs
(`loginWithDs` wraps a `user.login` request; the version check is an
`apiinfo.version` request). -/
structure GoTestEnv where
  loginWithDs : Except String String
  apiinfoVersion : Except String String

/-- A backend plugin response: `BuildResponse` on success (carrying the
version string) or `BuildErrorResponse` with a message. -/
inductive GoDsResponse where
  | okVersion (version : String)
  | errorResponse (message : String)
  deriving DecidableEq

/-- Go `TestConnection` (utils.js lines 179-202), with the invoked API
methods traced in order: `loginWithDs` FIRST (its failure reported as
`Authentication failed: ...`), the `apiinfo.version` request second (its
failure reported as `Version check failed: ...`), else the version. -/
def TestConnection (env : GoTestEnv) : GoDsResponse × List String :=
  match env.loginWithDs with
  | .error e => (.errorResponse ("Authentication failed: " ++ e), ["user.login"])
  | .ok _ =>
    match env.apiinfoVersion with
    | .error e =>
      (.errorResponse ("Version check failed: " ++ e), ["user.login", "apiinfo.version"])
    | .ok version => (.okVersion version, ["user.login", "apiinfo.version"])

/-- A Go connection-test environment in which both calls succeed. -/
def goTestEnvOk : GoTestEnv := ⟨.ok "token", .ok "5.0.0"⟩

/-- C8 counterexample: the Go backend `TestConnection` performs
`user.login` first and `apiinfo.version` second — even when everything
succeeds its call trace starts with `user.login`, not `apiinfo.version` as
the claim states for "the connection test". -/
theorem TestConnection_order_counterexample :
    (TestConnection goTestEnvOk).2 = ["user.login", "apiinfo.version"] ∧
    ¬ (TestConnection goTestEnvOk).2.head? = some "apiinfo.version" := by
  refine ⟨rfl, by decide⟩

/-- C8 (amended): the frontend `testDatasource` performs `apiinfo.version`
first and `user.login` second, and returns exactly one of three distinct
outcomes — success carrying the version string, the API error (an
authentication failure surfaces its message/data), or the
connection-failed status for an unreachable endpoint; the Go backend
`TestConnection` performs `user.login` first and `apiinfo.version` second,
likewise with three distinct outcomes whose error messages distinguish
authentication failure (`Authentication failed: ...`) from a failing
version check (`Version check failed: ...`). -/
theorem connectionTest_outcomes (jsEnv : JsTestEnv) (goEnv : GoTestEnv) :
    ((testDatasource jsEnv).2 = ["apiinfo.version"] ∨
      (testDatasource jsEnv).2 = ["apiinfo.version", "user.login"]) ∧
    (∀ v t, jsEnv.getVersion = .ok v → jsEnv.login = .ok t →
      testDatasource jsEnv =
        (⟨"success", "Success", "Zabbix API version: " ++ v⟩,
          ["apiinfo.version", "user.login"])) ∧
    (∀ v m d, jsEnv.getVersion = .ok v → jsEnv.login = .error (.zabbixAPIError m d) →
      (testDatasource jsEnv).1 = ⟨"error", m, d⟩) ∧
    (jsEnv.getVersion = .error .connectionError →
      (testDatasource jsEnv).1 =
        ⟨"error", "Connection failed", "Could not connect to given url"⟩) ∧
    ((TestConnection goEnv).2.head? = some "user.login") ∧
    (∀ e, goEnv.loginWithDs = .error e →
      (TestConnection goEnv).1 = .errorResponse ("Authentication failed: " ++ e)) ∧
    (∀ t e, goEnv.loginWithDs = .ok t → goEnv.apiinfoVersion = .error e →
      (TestConnection goEnv).1 = .errorResponse ("Version check failed: " ++ e)) ∧
    (∀ t v, goEnv.loginWithDs = .ok t → goEnv.apiinfoVersion = .ok v →
      (TestConnection goEnv).1 = .okVersion v) := by
  refine ⟨?_, ?_, ?_, ?_, ?_, ?_, ?_, ?_⟩
  · unfold testDatasource
    cases jsEnv.getVersion with
    | error e => exact Or.inl rfl
    | ok v =>
      cases jsEnv.login with
      | error e => exact Or.inr rfl
      | ok t => exact Or.inr rfl
  · intro v t hv hl
    simp [testDatasource, hv, hl]
  · intro v m d hv hl
    simp [testDatasource, hv, hl, testDatasourceCatch]
  · intro hv
    simp [testDatasource, hv, testDatasourceCatch]
  · unfold TestConnection
    cases goEnv.loginWithDs with
    | error e => rfl
    | ok t =>
      cases goEnv.apiinfoVersion with
      | error e => rfl
      | ok v => rfl
  · intro e he
    simp [TestConnection, he]
  · intro t e ht he
    simp [TestConnection, ht, he]
  · intro t v ht hv
    simp [TestConnection, ht, hv]

/-- A frontend connection-test environment in which both calls succeed. -/
def jsTestEnvOk : JsTestEnv := ⟨.ok "4.0.0", .ok "tok"⟩

theorem connectionTest_outcomes_witness :
    testDatasource jsTestEnvOk =
        (⟨"success", "Success", "Zabbix API version: " ++ "4.0.0"⟩,
          ["apiinfo.version", "user.login"]) ∧
      (TestConnection goTestEnvOk).1 = .okVersion "5.0.0" :=
  ⟨(connectionTest_outcomes jsTestEnvOk goTestEnvOk).2.1 "4.0.0" "tok" rfl rfl,
    (connectionTest_outcomes jsTestEnvOk goTestEnvOk).2.2.2.2.2.2.2 "token" "5.0.0" rfl rfl⟩

/-! ## Cached API-query handler (`ZabbixAPIQuery`, Go part of utils.js;
claim C9) -/

/-- Modelled from the spec: the backend query cache (`NewCache`/`Set`/`Get`,
whose source file is not among the given sources) is a key-value store in
the sense of §3 `CacheEntry` — `Get` returns the stored value (possibly the
stored Go `nil`, here `none`) together with whether the key exists; the TTL
aspect is irrelevant to the claim and omitted.  Keys are the request
hashes. -/
abbrev QueryCache (α : Type) := List (String × Option α)

/-- Go `queryCache.Get`: `some v` when the key exists with stored value `v`
(itself an `Option`, since Go interface values can be nil), `none` when the
key is absent. -/
def cacheGet (cache : QueryCache α) (key : String) : Option (Option α) :=
  match cache.find? (fun entry => entry.1 == key) with
  | some entry => some entry.2
  | none => none

/-- Go `queryCache.Set`: stores the value under the key (newest entry wins). -/
def cacheSet (cache : QueryCache α) (key : String) (value : Option α) : QueryCache α :=
  (key, value) :: cache

/-- Outcome of one `ZabbixAPIQuery` invocation: a built response, a
returned error, or a Go runtime panic. -/
inductive GoResult (α : Type) where
  | ok (v : α)
  | err (message : String)
  | panicked
  deriving DecidableEq

/-- Go `ZabbixAPIQuery` (utils.js lines 133-176) for a well-formed request,
keyed by the hash `requestHash` of the whole request: on a cache miss the
remote outcome (`ZabbixRequest`, abstracted as `remote`) is stored in the
cache BEFORE the error check (`ds.queryCache.Set(...)` precedes
`if err != nil`), so a failed request caches the nil result and returns the
literal error `ZabbixAPIQuery is not implemented yet`; on a cache hit no
remote request is made, and the debug line
`result.(*simplejson.Json).MarshalJSON()` type-asserts the cached value —
a Go panic when that value is the cached nil.  Returns the outcome, the
updated cache, and the number of remote requests made. -/
def ZabbixAPIQuery (remote : Except String α) (queryCache : QueryCache α)
    (requestHash : String) : GoResult α × QueryCache α × Nat :=
  match cacheGet queryCache requestHash with
  | some cached =>
    match cached with
    | some v => (.ok v, queryCache, 0)
    | none => (.panicked, queryCache, 0)
  | none =>
    let result : Option α := match remote with
      | .ok v => some v
      | .error _ => none
    let cache2 := cacheSet queryCache requestHash result
    match remote with
    | .error _ => (.err "ZabbixAPIQuery is not implemented yet", cache2, 1)
    | .ok v => (.ok v, cache2, 1)

/-- C9 counterexample: after a failed request, replaying the identical
request makes no remote call (`0` remote requests, even though the remote
would now answer `7`) but its outcome is a Go panic on the nil
type-assertion — the request is not "served" the cached nil value as the
claim states. -/
theorem ZabbixAPIQuery_replay_counterexample :
    (ZabbixAPIQuery (Except.error "network down") ([] : QueryCache Nat) "req").2.2 = 1 ∧
    cacheGet (ZabbixAPIQuery (Except.error "network down") ([] : QueryCache Nat) "req").2.1
        "req" = some none ∧
    ZabbixAPIQuery (Except.ok 7)
        (ZabbixAPIQuery (Except.error "network down") ([] : QueryCache Nat) "req").2.1
        "req" =
      (GoResult.panicked,
        (ZabbixAPIQuery (Except.error "network down") ([] : QueryCache Nat) "req").2.1,
        0) := by
  refine ⟨rfl, rfl, rfl⟩

/-- C9 (amended): on a cache miss, the remote outcome is written to the
query cache before the error check, so a failed request still caches the
nil result (`some none` under the request hash); a subsequent identical
request makes no remote call and reads the cached nil — but instead of
serving it as a response it panics on the nil type-assertion of the debug
marshal line. -/
theorem ZabbixAPIQuery_caches_nil (α : Type) (e : String)
    (remoteRetry : Except String α) (queryCache : QueryCache α) (requestHash : String)
    (hmiss : cacheGet queryCache requestHash = none) :
    (ZabbixAPIQuery (Except.error e) queryCache requestHash).2.2 = 1 ∧
    cacheGet (ZabbixAPIQuery (Except.error e) queryCache requestHash).2.1 requestHash =
      some none ∧
    (ZabbixAPIQuery (Except.error e) queryCache requestHash).1 =
      .err "ZabbixAPIQuery is not implemented yet" ∧
    ZabbixAPIQuery remoteRetry
        (ZabbixAPIQuery (Except.error e) queryCache requestHash).2.1 requestHash =
      (GoResult.panicked,
        (ZabbixAPIQuery (Except.error e) queryCache requestHash).2.1, 0) := by
  have h1 : ZabbixAPIQuery (Except.error e) queryCache requestHash =
      (.err "ZabbixAPIQuery is not implemented yet",
        (requestHash, none) :: queryCache, 1) := by
    simp [ZabbixAPIQuery, hmiss, cacheSet]
  refine ⟨?_, ?_, ?_, ?_⟩
  · rw [h1]
  · rw [h1]
    simp [cacheGet]
  · rw [h1]
  · rw [h1]
    simp [ZabbixAPIQuery, cacheGet]

theorem ZabbixAPIQuery_caches_nil_witness :
    (ZabbixAPIQuery (Except.error "auth failed") ([] : QueryCache Nat) "h1").2.2 = 1 ∧
    cacheGet (ZabbixAPIQuery (Except.error "auth failed") ([] : QueryCache Nat) "h1").2.1
        "h1" = some none ∧
    (ZabbixAPIQuery (Except.error "auth failed") ([] : QueryCache Nat) "h1").1 =
      .err "ZabbixAPIQuery is not implemented yet" ∧
    ZabbixAPIQuery (Except.ok 7)
        (ZabbixAPIQuery (Except.error "auth failed") ([] : QueryCache Nat) "h1").2.1
        "h1" =
      (GoResult.panicked,
        (ZabbixAPIQuery (Except.error "auth failed") ([] : QueryCache Nat) "h1").2.1,
        0) :=
  ZabbixAPIQuery_caches_nil Nat "auth failed" (Except.ok 7) [] "h1" rfl

/-! ## Interval parsing (`parseInterval`, JS part of utils.js; claim C10) -/

/-- The unit alternatives of the `(^[\d]+)(y|M|w|d|h|m|s)` pattern. -/
def intervalUnits : List Char := ['y', 'M', 'w', 'd', 'h', 'm', 's']

/-- Decimal value of a digit run, as JS `Number` reads the first capture
group. -/
def digitsToNat (digits : List Char) : Nat :=
  digits.foldl (fun acc c => 10 * acc + (c.toNat - ('0').toNat)) 0

/-- JS `intervalPattern.exec(interval)` for the regex
`(^[\d]+)(y|M|w|d|h|m|s)`: the (maximal) leading digit run and the unit
character that immediately follows it; `none` when the string does not
start with a digit or the character after the digit run is not one of the
seven units (backtracking to a shorter digit run never helps, since the
following character would then be a digit, never a unit letter). -/
def execIntervalPattern (interval : String) : Option (Nat × Char) :=
  if (interval.toList.takeWhile Char.isDigit).isEmpty then none
  else
    match interval.toList.dropWhile Char.isDigit with
    | [] => none
    | c :: _ =>
      if c ∈ intervalUnits then
        some (digitsToNat (interval.toList.takeWhile Char.isDigit), c)
      else none

/-- Function `parseInterval` (JS part of `src/plugins/zabbix-datasource/utils.js`,
lines 44-48): on a regex match, `moment.duration(n, unit).valueOf()` — the
`moment` library is external and abstracted as the conversion oracle
`momentDurationMs`; on a failed match the JS dereferences the `null` match
result and throws, modelled as `none` (no value is ever produced). -/
def parseInterval (momentDurationMs : Nat → Char → Int) (interval : String) : Option Int :=
  match execIntervalPattern interval with
  | none => none
  | some (n, u) => some (momentDurationMs n u)

/-- The cache-TTL initialization of the datasource constructors
(`src/src/datasource-zabbix/datasource.js` lines 33-35 and the identical
older-plugin code): `var ttl = jsonData.cacheTTL || '1h'` — the `'1h'`
default applies only to a missing or empty (falsy) setting — followed by
`utils.parseInterval(ttl)`. -/
def constructorCacheTTL (momentDurationMs : Nat → Char → Int)
    (cacheTTL : Option String) : Option Int :=
  parseInterval momentDurationMs
    (match cacheTTL with
      | none => "1h"
      | some s => if s == "" then "1h" else s)

theorem intervalUnits_not_digit (c : Char) (h : c ∈ intervalUnits) :
    c.isDigit = false := by
  fin_cases h <;> decide

theorem takeWhile_digits_append (digits : List Char) (u : Char) (rest : List Char)
    (hd : ∀ c ∈ digits, c.isDigit) (hu : u.isDigit = false) :
    (digits ++ u :: rest).takeWhile Char.isDigit = digits ∧
    (digits ++ u :: rest).dropWhile Char.isDigit = u :: rest := by
  induction digits with
  | nil => simp [List.takeWhile_cons, List.dropWhile_cons, hu]
  | cons c cs ih =>
    have hc : c.isDigit := hd c (by simp)
    have hcs : ∀ x ∈ cs, x.isDigit = true := fun x hx => hd x (by simp [hx])
    obtain ⟨h1, h2⟩ := ih hcs
    simp [List.takeWhile_cons, List.dropWhile_cons, hc, h1, h2]

theorem execIntervalPattern_isSome (s : String) :
    (execIntervalPattern s).isSome ↔
      ∃ digits u rest, s.toList = digits ++ u :: rest ∧ ¬ digits = [] ∧
        (∀ c ∈ digits, c.isDigit) ∧ u ∈ intervalUnits := by
  constructor
  · intro h
    unfold execIntervalPattern at h
    by_cases hempty : (s.toList.takeWhile Char.isDigit).isEmpty
    · rw [if_pos hempty] at h
      simp at h
    · rw [if_neg hempty] at h
      cases hrest : s.toList.dropWhile Char.isDigit with
      | nil =>
        rw [hrest] at h
        simp at h
      | cons c tail =>
        rw [hrest] at h
        by_cases hcont : c ∈ intervalUnits
        · refine ⟨s.toList.takeWhile Char.isDigit, c, tail, ?_, ?_, ?_, hcont⟩
          · rw [← hrest, List.takeWhile_append_dropWhile]
          · intro hnil
            rw [hnil] at hempty
            exact hempty rfl
          · intro x hx
            exact List.mem_takeWhile_imp hx
        · simp [hcont] at h
  · rintro ⟨digits, u, rest, hs, hne, hd, hu⟩
    have hund := intervalUnits_not_digit u hu
    obtain ⟨h1, h2⟩ := takeWhile_digits_append digits u rest hd hund
    have hempty : digits.isEmpty = false := List.isEmpty_eq_false.mpr hne
    unfold execIntervalPattern
    rw [hs, h1, h2, hempty]
    simp [hu, h1]

/-- C10: `parseInterval` yields `moment.duration(n, unit).valueOf()` (the
`moment` conversion abstracted as an oracle) exactly for the strings that
begin with a non-empty digit run immediately followed by one of the seven
unit characters (whatever follows is ignored); for every other string —
the empty string included — the regex match is null and the operation
produces no value (the JS throws dereferencing the null match, it does not
return a default); consequently the constructors' cache-TTL setup falls
back to the `1h` default only for a missing or empty setting, while a
malformed non-empty TTL string fails instead of defaulting. -/
theorem parseInterval_spec (momentDurationMs : Nat → Char → Int) :
    (∀ (digits : List Char) (u : Char) (rest : List Char),
      ¬ digits = [] → (∀ c ∈ digits, c.isDigit) → u ∈ intervalUnits →
      parseInterval momentDurationMs (String.mk (digits ++ u :: rest)) =
        some (momentDurationMs (digitsToNat digits) u)) ∧
    (∀ s : String, (parseInterval momentDurationMs s).isSome ↔
      ∃ digits u rest, s.toList = digits ++ u :: rest ∧ ¬ digits = [] ∧
        (∀ c ∈ digits, c.isDigit) ∧ u ∈ intervalUnits) ∧
    (parseInterval momentDurationMs "" = none) ∧
    (∀ s : String, parseInterval momentDurationMs s = none →
      constructorCacheTTL momentDurationMs (some s) =
        if s == "" then some (momentDurationMs 1 'h') else none) ∧
    (constructorCacheTTL momentDurationMs none = some (momentDurationMs 1 'h')) := by
  have hexec : ∀ (digits : List Char) (u : Char) (rest : List Char),
      ¬ digits = [] → (∀ c ∈ digits, c.isDigit) → u ∈ intervalUnits →
      execIntervalPattern (String.mk (digits ++ u :: rest)) =
        some (digitsToNat digits, u) := by
    intro digits u rest hne hd hu
    have hund := intervalUnits_not_digit u hu
    obtain ⟨h1, h2⟩ := takeWhile_digits_append digits u rest hd hund
    have hempty : digits.isEmpty = false := List.isEmpty_eq_false.mpr hne
    unfold execIntervalPattern
    have htl : (String.mk (digits ++ u :: rest)).toList = digits ++ u :: rest := rfl
    rw [htl, h1, h2, hempty]
    simp [hu, h1]
  refine ⟨?_, ?_, ?_, ?_, ?_⟩
  · intro digits u rest hne hd hu
    rw [parseInterval, hexec digits u rest hne hd hu]
  · intro s
    have hiso : (parseInterval momentDurationMs s).isSome =
        (execIntervalPattern s).isSome := by
      rw [parseInterval]
      cases execIntervalPattern s with
      | none => rfl
      | some nu => rfl
    rw [hiso]
    exact execIntervalPattern_isSome s
  · rfl
  · intro s hnone
    by_cases hs : s == ""
    · have hs' : s = "" := by simpa using hs
      subst hs'
      rfl
    · have hsf : (s == "") = false := by simpa using hs
      simp [constructorCacheTTL, hsf, hnone]
  · rfl

/-- The concrete millisecond table of `moment.duration` for the five
unambiguous units (months and years are calendar-dependent inside moment
and irrelevant here). -/
def momentMsW : Nat → Char → Int := fun n u =>
  (n : Int) *
    (if u = 's' then 1000
     else if u = 'm' then 60000
     else if u = 'h' then 3600000
     else if u = 'd' then 86400000
     else if u = 'w' then 604800000
     else 0)

theorem parseInterval_spec_witness :
    parseInterval momentMsW (String.mk (['3', '0'] ++ 'm' :: [])) =
        some (momentMsW (digitsToNat ['3', '0']) 'm') ∧
      constructorCacheTTL momentMsW (some "bogus") =
        (if "bogus" == "" then some (momentMsW 1 'h') else none) ∧
      constructorCacheTTL momentMsW none = some (momentMsW 1 'h') :=
  ⟨(parseInterval_spec momentMsW).1 ['3', '0'] 'm' [] (by decide)
      (by decide) (by decide),
    (parseInterval_spec momentMsW).2.2.2.1 "bogus" rfl,
    (parseInterval_spec momentMsW).2.2.2.2⟩
